import Mathlib

/-!
Verification of the Titan Chess Streamlit controller (`src/app.py`).

This file gives a shallow embedding of the core logic of `app.py`:
the pixel-to-square coordinate mapper, the move resolver `process_move`
(built on the python-chess primitives `Board.parse_san`, `Board.parse_uci`,
`Move.from_uci` and legal-move generation, which are modelled here from the
python-chess 1.x sources since the app delegates all chess rules to that
library), the two-click selection handler, the engine-parameter
synchronizer `update_engine_dynamic`, the AI-turn selector, the reset
button handler, the engine-move branch and the move-history rendering.

Conventions following python-chess: a square is a `Nat` in `0..63` with
`a1 = 0`, `h1 = 7`, `a8 = 56`, `h8 = 63`; `WHITE = true`, `BLACK = false`.
-/

namespace TitanChess

/-- Colors as in python-chess: `WHITE = True`, `BLACK = False`. -/
abbrev Color := Bool

def WHITE : Color := true

def BLACK : Color := false

/-- Piece types as in python-chess (`PAWN .. KING`). -/
inductive PieceType where
  | pawn | knight | bishop | rook | queen | king
deriving DecidableEq, Repr

/-- A colored piece (python-chess `Piece`). -/
structure Piece where
  pieceType : PieceType
  color : Color
deriving DecidableEq, Repr

/-- A board square, `0..63`, `a1 = 0`, python-chess indexing. -/
abbrev Square := Nat

def squareFile (s : Square) : Nat := s % 8

def squareRank (s : Square) : Nat := s / 8

def mkSquare (f r : Nat) : Square := r * 8 + f

/-- python-chess `square_name`: file letter `a..h` followed by rank digit `1..8`. -/
def squareName (s : Square) : String :=
  String.mk [Char.ofNat ('a'.toNat + squareFile s), Char.ofNat ('1'.toNat + squareRank s)]

/-- python-chess `SQUARE_NAMES` (`"a1", "b1", ..., "h8"`). -/
def SQUARE_NAMES : List String := (List.range 64).map squareName

/-- python-chess `parse_square` / `SQUARE_NAMES.index`; `none` models the
`ValueError` raised for a string that is not a square name. -/
def parse_square (name : String) : Option Square :=
  SQUARE_NAMES.findIdx? (· == name)

/-- A move as in python-chess: from square, to square, optional promotion
piece type.  The null move is `⟨0, 0, none⟩` (python-chess `Move.null()`). -/
structure Move where
  from_square : Square
  to_square : Square
  promotion : Option PieceType := none
deriving DecidableEq, Repr

def Move.null : Move := ⟨0, 0, none⟩

/-- python-chess `Move.__bool__`: a move is truthy unless it is the null move. -/
def Move.toBool (m : Move) : Bool :=
  decide (m.from_square ≠ 0) || decide (m.to_square ≠ 0) || m.promotion.isSome

/-- python-chess `piece_symbol` for promotion suffixes. -/
def pieceChar (t : PieceType) : Char :=
  match t with
  | .pawn => 'p' | .knight => 'n' | .bishop => 'b'
  | .rook => 'r' | .queen => 'q' | .king => 'k'

/-- python-chess `Move.uci` (also `Move.__str__`). -/
def Move.uci (m : Move) : String :=
  if m.promotion.isSome then
    squareName m.from_square ++ squareName m.to_square ++
      String.mk [pieceChar (m.promotion.getD .queen)]
  else if m.toBool then squareName m.from_square ++ squareName m.to_square
  else "0000"

/-- Index into python-chess `PIECE_SYMBOLS` for a lowercase promotion
character of a 5-character UCI string; `none` models the `ValueError`. -/
def promoOfChar (c : Char) : Option PieceType :=
  if c == 'p' then some .pawn
  else if c == 'n' then some .knight
  else if c == 'b' then some .bishop
  else if c == 'r' then some .rook
  else if c == 'q' then some .queen
  else if c == 'k' then some .king
  else none

/-- python-chess `Move.from_uci`.  `none` models `InvalidMoveError`
(bad length, bad square names, bad promotion character, or equal
from/to squares for a non-null string). -/
def Move.from_uci (uci : String) : Option Move :=
  if uci == "0000" then some Move.null
  else
    match uci.toList with
    | [f1, r1, f2, r2] =>
      match parse_square (String.mk [f1, r1]), parse_square (String.mk [f2, r2]) with
      | some a, some b => if a == b then none else some ⟨a, b, none⟩
      | _, _ => none
    | [f1, r1, f2, r2, p] =>
      match parse_square (String.mk [f1, r1]), parse_square (String.mk [f2, r2]),
            promoOfChar p with
      | some a, some b, some pt => if a == b then none else some ⟨a, b, some pt⟩
      | _, _, _ => none
    | _ => none

/-- The exception taxonomy of the python-chess parsers, as caught by
`process_move`: `invalid` models `InvalidMoveError`, `illegal` models
`IllegalMoveError`, `ambiguous` models `AmbiguousMoveError`.  The payload
is the offending input (the python messages interpolate it together with
the FEN; only the exception class and input matter here). -/
inductive MoveError where
  | invalid (input : String)
  | illegal (input : String)
  | ambiguous (input : String)
deriving DecidableEq, Repr

/-- The chess position, as the subset of python-chess `Board` state that the
app's code paths read: piece placement (index = square), side to move,
castling rights (standard chess: a boolean per right, valid together with
the rook being on its home square, mirroring `clean_castling_rights`), and
the en-passant target square. -/
structure Board where
  pieces : List (Option Piece)
  turn : Color
  castleWK : Bool
  castleWQ : Bool
  castleBK : Bool
  castleBQ : Bool
  ep_square : Option Square
deriving DecidableEq, Repr

def piece_at (b : Board) (s : Square) : Option Piece :=
  (b.pieces.getD s none)

def occupied (b : Board) (s : Square) : Bool :=
  (piece_at b s).isSome

def colorAt (b : Board) (s : Square) : Option Color :=
  (piece_at b s).map Piece.color

def backRankPieces (c : Color) : List (Option Piece) :=
  [PieceType.rook, .knight, .bishop, .queen, .king, .bishop, .knight, .rook].map
    (fun t => some ⟨t, c⟩)

def pawnRankPieces (c : Color) : List (Option Piece) :=
  List.replicate 8 (some ⟨.pawn, c⟩)

/-- The standard starting position (`chess.Board()`, also `board.reset()`). -/
def Board.start : Board :=
  { pieces := backRankPieces WHITE ++ pawnRankPieces WHITE ++
      List.replicate 32 none ++ pawnRankPieces BLACK ++ backRankPieces BLACK,
    turn := WHITE,
    castleWK := true, castleWQ := true, castleBK := true, castleBQ := true,
    ep_square := none }

/-- Offsets are (file delta, rank delta); `none` when the step leaves the board. -/
def shiftSquare (s : Square) (d : Int × Int) : Option Square :=
  let f : Int := (squareFile s : Int) + d.1
  let r : Int := (squareRank s : Int) + d.2
  if 0 ≤ f ∧ f < 8 ∧ 0 ≤ r ∧ r < 8 then some (mkSquare f.toNat r.toNat) else none

def knightOffsets : List (Int × Int) :=
  [(1, 2), (2, 1), (2, -1), (1, -2), (-1, -2), (-2, -1), (-2, 1), (-1, 2)]

def kingOffsets : List (Int × Int) :=
  [(1, 0), (1, 1), (0, 1), (-1, 1), (-1, 0), (-1, -1), (0, -1), (1, -1)]

def bishopDirs : List (Int × Int) := [(1, 1), (1, -1), (-1, 1), (-1, -1)]

def rookDirs : List (Int × Int) := [(1, 0), (-1, 0), (0, 1), (0, -1)]

/-- Squares a pawn of color `c` on `s` attacks (python-chess `BB_PAWN_ATTACKS`). -/
def pawnAttackSquares (c : Color) (s : Square) : List Square :=
  (if c == WHITE then [((1 : Int), (1 : Int)), (-1, 1)] else [(1, -1), (-1, -1)]).filterMap
    (shiftSquare s)

/-- Walk a sliding ray from `s` in direction `d`: all empty squares passed,
plus the first occupied square (the blocker) if any. -/
def rayWalk (b : Board) (d : Int × Int) : Nat → Square → List Square
  | 0, _ => []
  | fuel + 1, s =>
    match shiftSquare s d with
    | none => []
    | some t => if occupied b t then [t] else t :: rayWalk b d fuel t

def rayFrom (b : Board) (s : Square) (d : Int × Int) : List Square :=
  rayWalk b d 7 s

/-- python-chess `attacks_mask`: the squares attacked by the piece on `s`
(empty if `s` is empty).  For sliders the first blocker is included. -/
def attacksFrom (b : Board) (s : Square) : List Square :=
  match piece_at b s with
  | none => []
  | some p =>
    match p.pieceType with
    | .pawn => pawnAttackSquares p.color s
    | .knight => knightOffsets.filterMap (shiftSquare s)
    | .king => kingOffsets.filterMap (shiftSquare s)
    | .bishop => bishopDirs.flatMap (rayFrom b s)
    | .rook => rookDirs.flatMap (rayFrom b s)
    | .queen => (bishopDirs ++ rookDirs).flatMap (rayFrom b s)

/-- python-chess `is_attacked_by`: some piece of color `c` attacks `target`. -/
def isAttackedBy (b : Board) (c : Color) (target : Square) : Bool :=
  (List.range 64).any fun s =>
    match piece_at b s with
    | some p => p.color == c && (attacksFrom b s).contains target
    | none => false

def kingSquare (b : Board) (c : Color) : Option Square :=
  (List.range 64).find? (fun s => piece_at b s == some ⟨.king, c⟩)

/-- python-chess `Board.push`, restricted to standard chess: moves the piece
(with capture, promotion placement, en-passant removal of the captured pawn,
and the rook relocation of a castling king move), updates castling rights and
the en-passant square, and flips the turn.  `push` does not validate
legality.  A truthless (null) move just flips the turn; a move from an empty
square would hit an assertion in the source and is mapped to the same
turn-flip (it is unreachable from the app's call sites, which only push
parsed moves). -/
def Board.push (b : Board) (m : Move) : Board :=
  if m.toBool == false then { b with turn := !b.turn, ep_square := none }
  else
    match piece_at b m.from_square with
    | none => { b with turn := !b.turn, ep_square := none }
    | some p =>
      let fFrom := squareFile m.from_square
      let rFrom := squareRank m.from_square
      let fTo := squareFile m.to_square
      let diff : Int := (m.to_square : Int) - (m.from_square : Int)
      let isEp := p.pieceType == .pawn && b.ep_square == some m.to_square &&
        (diff == 7 || diff == 9 || diff == -7 || diff == -9) && !(occupied b m.to_square)
      let isCastle := p.pieceType == .king &&
        ((fFrom : Int) - (fTo : Int) > 1 || (fTo : Int) - (fFrom : Int) > 1)
      let placed : Piece := ⟨m.promotion.getD p.pieceType, p.color⟩
      let pieces := b.pieces.set m.from_square none
      let pieces := if isEp then pieces.set (mkSquare fTo rFrom) none else pieces
      let pieces := pieces.set m.to_square (some placed)
      let pieces :=
        if isCastle then
          if fTo > fFrom then
            (pieces.set (mkSquare 7 rFrom) none).set (mkSquare 5 rFrom) (some ⟨.rook, p.color⟩)
          else
            (pieces.set (mkSquare 0 rFrom) none).set (mkSquare 3 rFrom) (some ⟨.rook, p.color⟩)
        else pieces
      let newEp : Option Square :=
        if p.pieceType == .pawn && diff == 16 && rFrom == 1 then some (m.from_square + 8)
        else if p.pieceType == .pawn && diff == -16 && rFrom == 6 then some (m.from_square - 8)
        else none
      let kingMove := p.pieceType == .king
      { pieces := pieces,
        turn := !b.turn,
        castleWK := b.castleWK && decide (m.from_square ≠ 7) && decide (m.to_square ≠ 7) &&
          !(kingMove && b.turn == WHITE),
        castleWQ := b.castleWQ && decide (m.from_square ≠ 0) && decide (m.to_square ≠ 0) &&
          !(kingMove && b.turn == WHITE),
        castleBK := b.castleBK && decide (m.from_square ≠ 63) && decide (m.to_square ≠ 63) &&
          !(kingMove && b.turn == BLACK),
        castleBQ := b.castleBQ && decide (m.from_square ≠ 56) && decide (m.to_square ≠ 56) &&
          !(kingMove && b.turn == BLACK),
        ep_square := newEp }

def backrankOf (c : Color) : Nat := if c == WHITE then 7 else 0

def pawnStartRank (c : Color) : Nat := if c == WHITE then 1 else 6

def pawnDir (c : Color) : Int := if c == WHITE then 1 else -1

/-- Pawn moves to `t` from `s`: four promotion moves (queen, rook, bishop,
knight, the order of python-chess's generator) on the back rank, else the
bare move.  python-chess never generates a back-rank pawn move without a
promotion piece. -/
def promoteList (s t : Square) (c : Color) : List Move :=
  if squareRank t == backrankOf c then
    [⟨s, t, some .queen⟩, ⟨s, t, some .rook⟩, ⟨s, t, some .bishop⟩, ⟨s, t, some .knight⟩]
  else [⟨s, t, none⟩]

/-- Pseudo-legal pawn captures and advances for the pawn of the side to move
on `s` (the capture, single-advance and double-advance sections of
python-chess `generate_pseudo_legal_moves`; en passant is generated
separately). -/
def pawnMovesFrom (b : Board) (s : Square) (toMask : Square → Bool) : List Move :=
  let c := b.turn
  let dir := pawnDir c
  let caps := (pawnAttackSquares c s).filter fun t =>
    toMask t && (match piece_at b t with
                 | some p => p.color == !c
                 | none => false)
  let capMoves := caps.flatMap (fun t => promoteList s t c)
  let single : List Move :=
    match shiftSquare s (0, dir) with
    | some t => if !(occupied b t) && toMask t then promoteList s t c else []
    | none => []
  let double : List Move :=
    if squareRank s == pawnStartRank c then
      match shiftSquare s (0, dir), shiftSquare s (0, 2 * dir) with
      | some t1, some t2 =>
        if !(occupied b t1) && !(occupied b t2) && toMask t2 then [⟨s, t2, none⟩] else []
      | _, _ => []
    else []
  capMoves ++ single ++ double

/-- python-chess `generate_pseudo_legal_ep`: the en-passant square is set,
targeted by the mask and empty, and the capturer is an own pawn on the
correct rank attacking it. -/
def epMoves (b : Board) (fromMask toMask : Square → Bool) : List Move :=
  match b.ep_square with
  | none => []
  | some ep =>
    if !(toMask ep) || occupied b ep then []
    else
      ((pawnAttackSquares (!b.turn) ep).filter fun s =>
        fromMask s && squareRank s == (if b.turn == WHITE then 4 else 3) &&
        (match piece_at b s with
         | some p => p.pieceType == .pawn && p.color == b.turn
         | none => false)).map (fun s => ⟨s, ep, none⟩)

/-- Attack test with the moving king removed from the board, as in the
`_attacked_for_king` path-safety checks of python-chess castling
generation (a slider attacks through the king's current square). -/
def attackedForKing (b : Board) (enemy : Color) (target kingSq : Square) : Bool :=
  isAttackedBy { b with pieces := b.pieces.set kingSq none } enemy target

/-- python-chess `generate_castling_moves`, restricted to standard chess:
the king stands on its home square with the castling right and the rook on
its home square (`clean_castling_rights`), the squares between them are
empty, and the king's start, path and destination squares are not attacked.
python-chess applies `from_mask` to the king square and `to_mask` to the
rook square; the generated move is king-from to king-to. -/
def castlingMoves (b : Board) (fromMask toMask : Square → Bool) : List Move :=
  let c := b.turn
  let home : Nat := if c == WHITE then 4 else 60
  let enemy := !c
  if !(fromMask home) then []
  else
    match piece_at b home with
    | some p =>
      if !(p.pieceType == .king && p.color == c) then []
      else
        let kingSafe := fun sq => !(attackedForKing b enemy sq home)
        let rightK := if c == WHITE then b.castleWK else b.castleBK
        let rightQ := if c == WHITE then b.castleWQ else b.castleBQ
        let kcond := rightK && piece_at b (home + 3) == some ⟨.rook, c⟩ && toMask (home + 3) &&
          !(occupied b (home + 1)) && !(occupied b (home + 2)) &&
          kingSafe home && kingSafe (home + 1) && kingSafe (home + 2)
        let qcond := rightQ && piece_at b (home - 4) == some ⟨.rook, c⟩ && toMask (home - 4) &&
          !(occupied b (home - 1)) && !(occupied b (home - 2)) && !(occupied b (home - 3)) &&
          kingSafe home && kingSafe (home - 1) && kingSafe (home - 2)
        (if kcond then [⟨home, home + 2, none⟩] else []) ++
        (if qcond then [⟨home, home - 2, none⟩] else [])
    | none => []

/-- python-chess `generate_pseudo_legal_moves` with from/to masks:
non-pawn piece moves onto squares not occupied by an own piece, castling,
pawn captures and advances, and en passant. -/
def pseudoLegalMoves (b : Board) (fromMask toMask : Square → Bool) : List Move :=
  let pieceMoves := (List.range 64).flatMap fun s =>
    match piece_at b s with
    | some p =>
      if p.color == b.turn && fromMask s then
        if p.pieceType == .pawn then pawnMovesFrom b s toMask
        else
          ((attacksFrom b s).filter fun t =>
            toMask t && !(colorAt b t == some b.turn)).map (fun t => ⟨s, t, none⟩)
      else []
    | none => []
  pieceMoves ++ castlingMoves b fromMask toMask ++ epMoves b fromMask toMask

/-- python-chess `is_into_check` composed over `push`: after making the
move, the mover's king is attacked.  As in `generate_legal_moves`, a
position without an own king filters nothing. -/
def isIntoCheck (b : Board) (m : Move) : Bool :=
  let after := b.push m
  match kingSquare after b.turn with
  | none => false
  | some k => isAttackedBy after (!b.turn) k

/-- python-chess `generate_legal_moves` with masks: pseudo-legal moves that
do not leave the mover's king attacked. -/
def legalMoves (b : Board) (fromMask toMask : Square → Bool) : List Move :=
  (pseudoLegalMoves b fromMask toMask).filter (fun m => !isIntoCheck b m)

/-- python-chess `board.legal_moves` (the full legal-move generator). -/
def legal_moves (b : Board) : List Move :=
  legalMoves b (fun _ => true) (fun _ => true)

/-- python-chess `Board.is_legal` (equivalently `move in board.legal_moves`):
membership in the generated legal-move set.  The standard `Board` never ends
by variant rule, null moves are never generated, promotions appear in the
set exactly for back-rank pawn moves, so membership coincides with the
source's `is_pseudo_legal`/`is_into_check` checks. -/
def Board.is_legal (b : Board) (m : Move) : Bool :=
  (legal_moves b).contains m

/-- python-chess `Board.parse_uci`: parse the string with `Move.from_uci`
(`InvalidMoveError` on failure), reject null moves, then require legality
(`IllegalMoveError`).  The chess960 round-trip through `_to_chess960` and
`_from_chess960` is the identity on a standard board and is omitted. -/
def Board.parse_uci (b : Board) (uci : String) : Except MoveError Move :=
  match Move.from_uci uci with
  | none => .error (.invalid uci)
  | some m =>
    if m.toBool == false then .error (.invalid uci)
    else if b.is_legal m then .ok m
    else .error (.illegal uci)

/-- python-chess `Board.find_move`: defaults a suffix-less pawn move to the
back rank to a queen promotion, then requires the move to be legal. -/
def Board.find_move (b : Board) (from_square to_square : Square)
    (promotion : Option PieceType) : Except MoveError Move :=
  let promotion :=
    if promotion.isNone &&
        (match piece_at b from_square with
         | some p => p.pieceType == .pawn
         | none => false) &&
        (squareRank to_square == 0 || squareRank to_square == 7)
    then some PieceType.queen else promotion
  let m : Move := ⟨from_square, to_square, promotion⟩
  if b.is_legal m then .ok m else .error (.illegal m.uci)

def isFileChar (c : Char) : Bool := 'a' ≤ c && c ≤ 'h'

def isRankChar (c : Char) : Bool := '1' ≤ c && c ≤ '8'

def isPieceChar (c : Char) : Bool :=
  c == 'N' || c == 'B' || c == 'K' || c == 'R' || c == 'Q'

def isPromoChar (c : Char) : Bool :=
  c == 'n' || c == 'b' || c == 'r' || c == 'q' || c == 'k' ||
  c == 'N' || c == 'B' || c == 'R' || c == 'Q' || c == 'K'

/-- The capture groups of python-chess `SAN_REGEX`:
group 1 (piece letter), group 2 (origin file), group 3 (origin rank),
group 4 (target square, mandatory), group 5 (promotion letter, which in the
pattern may be preceded by `=`). -/
structure SanGroups where
  piece : Option Char
  fromFile : Option Char
  fromRank : Option Char
  target : String
  promo : Option Char
deriving DecidableEq, Repr

/-- Matching of python-chess `SAN_REGEX`
(`([NBKRQ])?([a-h])?([1-8])?[-x]?([a-h][1-8])(=?[nbrqkNBRQK])?[+#]?` anchored
at both ends).  The anchored pattern is parsed deterministically from the
right: one optional check character, then the optional promotion letter with
its optional `=`, then the mandatory target square, then the prefix groups
left to right.  The character classes after the target are disjoint from the
rank digits ending it, so this agrees with the regex's backtracking. -/
def sanGroups (san : String) : Option SanGroups :=
  let rev := san.toList.reverse
  let rev := match rev with
    | c :: rest => if c == '+' || c == '#' then rest else rev
    | [] => rev
  let pr : Option Char × List Char := match rev with
    | c :: rest =>
      if isPromoChar c then
        match rest with
        | '=' :: rest2 => (some c, rest2)
        | _ => (some c, rest)
      else (none, rev)
    | [] => (none, rev)
  match pr.2 with
  | r :: f :: rest =>
    if isRankChar r && isFileChar f then
      let pre := rest.reverse
      let pc : Option Char × List Char := match pre with
        | c :: rest1 => if isPieceChar c then (some c, rest1) else (none, pre)
        | [] => (none, pre)
      let ff : Option Char × List Char := match pc.2 with
        | c :: rest1 => if isFileChar c then (some c, rest1) else (none, pc.2)
        | [] => (none, pc.2)
      let fr : Option Char × List Char := match ff.2 with
        | c :: rest1 => if isRankChar c then (some c, rest1) else (none, ff.2)
        | [] => (none, ff.2)
      let rem := match fr.2 with
        | c :: rest1 => if c == '-' || c == 'x' then rest1 else fr.2
        | [] => fr.2
      if rem.isEmpty then some ⟨pc.1, ff.1, fr.1, String.mk [f, r], pr.1⟩ else none
    else none
  | _ => none

def SAN_CASTLE_K : List String := ["O-O", "O-O+", "O-O#", "0-0", "0-0+", "0-0#"]

def SAN_CASTLE_Q : List String := ["O-O-O", "O-O-O+", "O-O-O#", "0-0-0", "0-0-0+", "0-0-0#"]

def SAN_NULL : List String := ["--", "Z0", "0000", "@@@@"]

def typeOfUpperChar (c : Char) : PieceType :=
  if c == 'N' then .knight
  else if c == 'B' then .bishop
  else if c == 'R' then .rook
  else if c == 'Q' then .queen
  else .king

/-- The unique-match loop at the end of python-chess `parse_san`: the legal
moves surviving the masks and carrying the requested promotion; none is
`IllegalMoveError`, more than one is `AmbiguousMoveError`. -/
def matchedMove (b : Board) (fromMask toMask : Square → Bool)
    (promotion : Option PieceType) (san : String) : Except MoveError Move :=
  match (legalMoves b fromMask toMask).filter (fun m => m.promotion == promotion) with
  | [] => .error (.illegal san)
  | [m] => .ok m
  | _ => .error (.ambiguous san)

/-- python-chess `Board.parse_san` (1.x): castling strings first, then the
regex.  A non-matching string is a null move for the null spellings and
`InvalidMoveError` otherwise.  A fully specified square pair without a piece
letter goes through `find_move`, whose result is rejected with
`IllegalMoveError` when its promotion differs from the parsed one ("missing
promotion piece type").  Otherwise the origin mask is cut down by the given
file/rank and by the piece letter, or to pawns (restricted to the target's
file when no origin file is given), and a unique legal match is required.
The target mask excludes squares occupied by the side to move. -/
def Board.parse_san (b : Board) (san : String) : Except MoveError Move :=
  if SAN_CASTLE_K.contains san then
    match (castlingMoves b (fun _ => true) (fun _ => true)).find?
        (fun m => m.to_square > m.from_square) with
    | some m => .ok m
    | none => .error (.illegal san)
  else if SAN_CASTLE_Q.contains san then
    match (castlingMoves b (fun _ => true) (fun _ => true)).find?
        (fun m => m.to_square < m.from_square) with
    | some m => .ok m
    | none => .error (.illegal san)
  else
    match sanGroups san with
    | none => if SAN_NULL.contains san then .ok Move.null else .error (.invalid san)
    | some g =>
      match parse_square g.target with
      | none => .error (.invalid san)
      | some to_square =>
        let toMask : Square → Bool := fun t => t == to_square && !(colorAt b t == some b.turn)
        let promotion : Option PieceType := g.promo.map (fun c => typeOfUpperChar c.toUpper)
        let fileOk : Square → Bool := fun s =>
          match g.fromFile with
          | some fc => squareFile s == fc.toNat - 'a'.toNat
          | none => true
        let rankOk : Square → Bool := fun s =>
          match g.fromRank with
          | some rc => squareRank s == rc.toNat - '1'.toNat
          | none => true
        match g.piece with
        | some pc =>
          let pt := typeOfUpperChar pc
          let fromMask := fun s => fileOk s && rankOk s && piece_at b s == some ⟨pt, b.turn⟩
          matchedMove b fromMask toMask promotion san
        | none =>
          match g.fromFile, g.fromRank with
          | some fc, some rc =>
            let fs := mkSquare (fc.toNat - 'a'.toNat) (rc.toNat - '1'.toNat)
            match b.find_move fs to_square promotion with
            | .error e => .error e
            | .ok m => if m.promotion == promotion then .ok m else .error (.illegal san)
          | _, _ =>
            let fromMask := fun s => fileOk s && rankOk s &&
              (match piece_at b s with
               | some p => p.pieceType == .pawn && p.color == b.turn
               | none => false) &&
              (g.fromFile.isSome || squareFile s == squareFile to_square)
            matchedMove b fromMask toMask promotion san

/-- The user-visible messages built by `process_move` (`app.py` 177-193),
carrying their payloads instead of the formatted Portuguese f-strings:
`movimento` is the success message, `ilegal` the "Movimento ilegal" branch
(a parsed move outside the legal set), `erro` the `except` branch showing
the parser exception. -/
inductive ProcMsg where
  | movimento (m : Move)
  | ilegal (input : String)
  | erro (e : MoveError)
deriving DecidableEq, Repr

/-- `app.py` `process_move(board, move_input, is_uci)`: with `is_uci` the
input is parsed as UCI when it has exactly 4 characters and as SAN
otherwise; without it SAN is tried first and UCI on any SAN exception.  A
parsed move is accepted only if it is in `board.legal_moves`; any parser
exception yields the `erro` message.  Returns (success, message, move). -/
def process_move (board : Board) (move_input : String) (is_uci : Bool) :
    Bool × ProcMsg × Option Move :=
  let parsed : Except MoveError Move :=
    if is_uci then
      if move_input.length == 4 then board.parse_uci move_input
      else board.parse_san move_input
    else
      match board.parse_san move_input with
      | .ok m => .ok m
      | .error _ => board.parse_uci move_input
  match parsed with
  | .error e => (false, .erro e, none)
  | .ok move =>
    if board.is_legal move then (true, .movimento move, some move)
    else (false, .ilegal move_input, none)

/-- `app.py` `pixel_to_square(x, y, board_size, orientation)` (lines
158-174).  Python computes `int(x // (board_size / 8))`, a float floor
division; for the board size 650 used by the app and integer pixel inputs
this equals the integer floor division `(x * 8) / board_size` used here
(650 / 8 = 81.25 is exactly representable and the quotient of integers by
it never rounds across an integer).  The raw indices are clamped into
`0..7`, mirrored as `7 - idx` when the orientation is Black, and mapped to
the file letter and the rank digit `8 - rank_idx`. -/
def pixel_to_square (x y : Int) (board_size : Int) (orientation : Color) : String :=
  let file_idx := (x * 8) / board_size
  let rank_idx := (y * 8) / board_size
  let file_idx := max 0 (min 7 file_idx)
  let rank_idx := max 0 (min 7 rank_idx)
  let file_idx := if orientation == BLACK then 7 - file_idx else file_idx
  let rank_idx := if orientation == BLACK then 7 - rank_idx else rank_idx
  String.mk [Char.ofNat ('a'.toNat + file_idx.toNat),
             Char.ofNat ('0'.toNat + (8 - rank_idx).toNat)]

/-- The smallest integer magnitude that CPython cannot convert to a
float: `PyLong_AsDouble` rounds to 53 significant bits with ties to even
and raises `OverflowError` when the rounded value exceeds the largest
finite double `2^1024 - 2^971`.  Every integer of magnitude at least
`2^1024 - 2^970` rounds to `2^1024` (the tie point included, since the
even-significand candidate is `2^1024`) and overflows; every smaller
magnitude rounds to a finite double. -/
def PY_FLOAT_OVERFLOW : Nat := 2 ^ 1024 - 2 ^ 970

def floatConvertible (x : Int) : Bool := x.natAbs < PY_FLOAT_OVERFLOW

/-- CPython evaluation of `pixel_to_square` including its error path.
The first floor division `x // square_size` converts `x` to a float and
raises `OverflowError` (modelled as `none`) when `x` is not
float-convertible; the second floor division does the same for `y`.  For
convertible inputs the clamped result coincides with the exact integer
model `pixel_to_square`: below magnitude `2^51` the float and integer
floor divisions by `81.25` agree outright (the quotient, of denominator
`325`, is at least `1/325` from any other integer while the division's
rounding error is smaller), and for larger magnitudes the quotient lies
far outside `0..7` on the same side, so the clamp absorbs the float
rounding. -/
def pixel_to_square_checked (x y : Int) (board_size : Int) (orientation : Color) :
    Option String :=
  if !floatConvertible x then none
  else if !floatConvertible y then none
  else some (pixel_to_square x y board_size orientation)

/-- The three values of the game-mode selectbox (`app.py` lines 206-214). -/
def gameModeOptions : List String :=
  ["Sandbox (Livre - Jogar pelos dois)",
   "Humano vs Stockfish (Jogar de Brancas)",
   "Stockfish vs Humano (Jogar de Pretas)"]

/-- The AI-turn selection of `main` (`app.py` lines 404-412): the flag
starts false, is set when `game_mode == "Humano vs Stockfish"` with Black
to move or `game_mode == "Stockfish vs Humano"` with White to move, and is
forced by the manual "Lance Sugerido (IA)" button. -/
def ai_should_play (game_mode : String) (turn : Color) (engine_button : Bool) : Bool :=
  let base :=
    if game_mode == "Humano vs Stockfish" && turn == BLACK then true
    else if game_mode == "Stockfish vs Humano" && turn == WHITE then true
    else false
  base || engine_button

/-- The outcome of the `try` block of `update_engine_dynamic`: both
`set_depth` and `set_skill_level` succeed, or one of them raises (the
snapshot assignment comes after both, so any exception leaves it
unchanged). -/
inductive ApplyOutcome where
  | ok | failDepth | failSkill
deriving DecidableEq, Repr

/-- The engine parameter-update commands sent by `update_engine_dynamic`. -/
inductive EngineCmd where
  | setDepth (d : Int)
  | setSkillLevel (sk : Int)
deriving DecidableEq, Repr

/-- `app.py` `update_engine_dynamic(sf_instance, depth, skill)` (lines
142-154) as a function from the stored `st.session_state.engine_params`
snapshot to the new snapshot plus the engine commands attempted.  The
initial `{}` snapshot and the `{"depth": d, "skill": s}` dicts are modelled
as `none` and `some (d, s)`.  `sf_instance` is `none` when no engine is
loaded and otherwise carries the outcome of the attempted calls. -/
def update_engine_dynamic (sf_instance : Option ApplyOutcome)
    (engine_params : Option (Int × Int)) (depth skill : Int) :
    Option (Int × Int) × List EngineCmd :=
  match sf_instance with
  | none => (engine_params, [])
  | some outcome =>
    if engine_params == some (depth, skill) then (engine_params, [])
    else
      match outcome with
      | .ok => (some (depth, skill), [.setDepth depth, .setSkillLevel skill])
      | .failDepth => (engine_params, [.setDepth depth])
      | .failSkill => (engine_params, [.setDepth depth, .setSkillLevel skill])

/-- The per-session state kept in `st.session_state` by `init_state`
(`app.py` lines 90-106), restricted to the game fields: the board, the
move log, the orientation, the two selection fields, and the engine
parameter snapshot. -/
structure Session where
  board : Board
  game_log : List String
  orientation : Color
  selected_square : Option String
  valid_moves_from_square : List String
  engine_params : Option (Int × Int)
deriving DecidableEq, Repr

/-- The initial session state created by `init_state`. -/
def init_session : Session :=
  { board := Board.start, game_log := [], orientation := WHITE,
    selected_square := none, valid_moves_from_square := [],
    engine_params := none }

/-- The "Reiniciar" button handler (`app.py` lines 221-226): reset the
board, clear the log and both selection fields.  The orientation, the
engine-parameter snapshot and the game-mode widget are not touched. -/
def reset_session (s : Session) : Session :=
  { s with board := Board.start, game_log := [],
           selected_square := none, valid_moves_from_square := [] }

/-- The outcome reported by the coordinate-click handler. -/
inductive ClickOutcome where
  | selectedPiece (sq : String)
  | noPiece (sq : String)
  | moved (msg : ProcMsg)
  | moveFailed (msg : ProcMsg)
  | exn
deriving DecidableEq, Repr

/-- The "Processar" button handler of the manual-coordinates tab
(`app.py` lines 357-387).  The click is mapped to a square name; with no
selection, a square holding a piece of the side to move becomes the
selection and the legal moves starting there (as UCI strings) are stored;
otherwise the square is the second pick: the 4-character string
`from + to` goes through `process_move` as UCI, a success pushes the move,
appends it to the log and clears both selection fields, and a failure
clears only `selected_square`.  `chess.parse_square` cannot fail on the
mapper's output (`ClickOutcome.exn` is unreachable); on success the move
returned by `process_move` is always present, so the `getD` default is
never used. -/
def handle_coordinate_click (s : Session) (click_x click_y : Int) :
    Session × ClickOutcome :=
  let square_name := pixel_to_square click_x click_y 650 s.orientation
  match parse_square square_name with
  | none => (s, .exn)
  | some square_obj =>
    match s.selected_square with
    | none =>
      match piece_at s.board square_obj with
      | some piece =>
        if piece.color == s.board.turn then
          let moves := ((legal_moves s.board).map Move.uci).filter
            (fun u => u.take 2 == square_name)
          ({ s with selected_square := some square_name,
                    valid_moves_from_square := moves }, .selectedPiece square_name)
        else (s, .noPiece square_name)
      | none => (s, .noPiece square_name)
    | some from_sq =>
      let move_uci := from_sq ++ square_name
      let res := process_move s.board move_uci true
      if res.1 then
        ({ s with board := s.board.push (res.2.2.getD Move.null),
                  game_log := s.game_log ++ [move_uci],
                  selected_square := none,
                  valid_moves_from_square := [] }, .moved res.2.1)
      else
        ({ s with selected_square := none }, .moveFailed res.2.1)

/-- The engine-move branch (`app.py` lines 414-428): `get_best_move_time`
returned `best` (`none` models both an engine failure and a falsy best
move, which leave the state untouched); a returned UCI string is parsed
with `chess.Move.from_uci` (an exception lands in the branch's `except`
and leaves the state untouched), pushed, appended to the log, and both
selection fields are cleared. -/
def engine_turn (s : Session) (best : Option String) : Session :=
  match best with
  | none => s
  | some best_move_uci =>
    match Move.from_uci best_move_uci with
    | none => s
    | some move =>
      { s with board := s.board.push move,
               game_log := s.game_log ++ [best_move_uci],
               selected_square := none,
               valid_moves_from_square := [] }

/-- One entry of the history text (`app.py` lines 450-455): ply `i` is
rendered as `"{i//2 + 1}. {move} "` when `i` is even and `"{move}  \n"`
when odd. -/
def pgn_entry (i : Nat) (move : String) : String :=
  if i % 2 == 0 then toString (i / 2 + 1) ++ ". " ++ move ++ " "
  else move ++ "  \n"

def pgn_go (i : Nat) : List String → String
  | [] => ""
  | m :: rest => pgn_entry i m ++ pgn_go (i + 1) rest

/-- The `pgn_text` accumulation loop over `enumerate(game_log)`
(`app.py` lines 450-455). -/
def pgn_text (log : List String) : String := pgn_go 0 log

/-- The "Rodadas" metric (`app.py` line 465): `(len(game_log) + 1) // 2`. -/
def rodadas (log : List String) : Nat := (log.length + 1) / 2

/-- Rounds view, written from the spec's words (§4.6): ply index `i`
(0-based) belongs to round `i/2 + 1`, even `i` is White's move and odd `i`
is Black's move of that round; a trailing unpaired White move has an
absent Black move.  `specRoundsGo n` pairs a log whose head is the White
move of round `n`. -/
def specRoundsGo (n : Nat) : List String → List (Nat × String × Option String)
  | [] => []
  | [w] => [(n, w, none)]
  | w :: b :: rest => (n, w, some b) :: specRoundsGo (n + 1) rest

/-- Rounds view from the spec's words: see `specRoundsGo`. -/
def specRounds (log : List String) : List (Nat × String × Option String) :=
  specRoundsGo 1 log

/-- How one round of the spec-side rounds view appears in the history
text: the round number with the White move, then the Black move and the
line break when present. -/
def renderRound : Nat × String × Option String → String
  | (n, w, some bm) => toString n ++ ". " ++ w ++ " " ++ bm ++ "  \n"
  | (n, w, none) => toString n ++ ". " ++ w ++ " "

def renderRounds : List (Nat × String × Option String) → String
  | [] => ""
  | r :: rest => renderRound r ++ renderRounds rest

/-- The raw file/rank index mirroring of the spec (§4.1): `7 - idx` for
the Black-at-bottom orientation, the identity otherwise. -/
def mirrorIdx (o : Color) (i : Int) : Int := if o == BLACK then 7 - i else i

def emptyPieces : List (Option Piece) := List.replicate 64 none

/-- A small test position: White king e1 and pawn e2, Black king e8,
White to move, no castling rights. -/
def tinyBoard : Board :=
  { pieces := ((emptyPieces.set 4 (some ⟨.king, WHITE⟩)).set 12
      (some ⟨.pawn, WHITE⟩)).set 60 (some ⟨.king, BLACK⟩),
    turn := WHITE,
    castleWK := false, castleWQ := false, castleBK := false, castleBQ := false,
    ep_square := none }

/-- A promotion test position: White king g1 and pawn e7, Black king a8,
White to move; `e7e8q` is legal. -/
def promoBoard : Board :=
  { pieces := ((emptyPieces.set 6 (some ⟨.king, WHITE⟩)).set 52
      (some ⟨.pawn, WHITE⟩)).set 56 (some ⟨.king, BLACK⟩),
    turn := WHITE,
    castleWK := false, castleWQ := false, castleBK := false, castleBQ := false,
    ep_square := none }

/-- A session in the piece-selected state on `tinyBoard`: e2 is selected
and its candidate moves e2e3, e2e4 are stored. -/
def selectedSession : Session :=
  { board := tinyBoard, game_log := [], orientation := WHITE,
    selected_square := some "e2", valid_moves_from_square := ["e2e3", "e2e4"],
    engine_params := none }

/-- A session with a flipped board, an engine snapshot and a game in
progress, used to probe the reset button. -/
def flippedSession : Session :=
  { board := tinyBoard, game_log := ["e2e4"], orientation := BLACK,
    selected_square := some "e2", valid_moves_from_square := ["e2e3"],
    engine_params := some (12, 7) }

/-! ### Helper lemmas -/

theorem pixel_label_mem (fi ri : Int) (h1 : 0 ≤ fi) (h2 : fi ≤ 7)
    (h3 : 0 ≤ ri) (h4 : ri ≤ 7) :
    String.mk [Char.ofNat ('a'.toNat + fi.toNat),
               Char.ofNat ('0'.toNat + (8 - ri).toNat)] ∈ SQUARE_NAMES := by
  interval_cases fi <;> interval_cases ri <;> decide

theorem pixel_to_square_mem (x y : Int) (o : Color) :
    pixel_to_square x y 650 o ∈ SQUARE_NAMES := by
  have hx0 : 0 ≤ max 0 (min 7 ((x * 8) / 650)) := le_max_left _ _
  have hx7 : max 0 (min 7 ((x * 8) / 650)) ≤ 7 := by omega
  have hy0 : 0 ≤ max 0 (min 7 ((y * 8) / 650)) := le_max_left _ _
  have hy7 : max 0 (min 7 ((y * 8) / 650)) ≤ 7 := by omega
  unfold pixel_to_square
  rcases o with _ | _
  · simp only [BLACK, Bool.false_eq_true, beq_self_eq_true, if_true]
    exact pixel_label_mem _ _ (by omega) (by omega) (by omega) (by omega)
  · simp only [BLACK, beq_iff_eq, Bool.true_eq_false, if_false]
    exact pixel_label_mem _ _ hx0 hx7 hy0 hy7

theorem parse_square_isSome_of_mem :
    ∀ n ∈ SQUARE_NAMES, (parse_square n).isSome := by decide

theorem pixel_parse_some (x y : Int) (o : Color) :
    ∃ q, parse_square (pixel_to_square x y 650 o) = some q :=
  Option.isSome_iff_exists.mp
    (parse_square_isSome_of_mem _ (pixel_to_square_mem x y o))

/-! ### C9: the pixel mapper on arbitrary integer input -/

set_option maxRecDepth 8192 in
/-- C9 counterexample: the integer input `10^400` cannot be converted to
a CPython float, so `pixel_to_square` raises `OverflowError` inside its
first floor division instead of returning a square name — there is an
input value that causes an error. -/
theorem pixel_overflow_raises :
    pixel_to_square_checked ((10 ^ 400 : Nat) : Int) 0 650 WHITE = none := by decide

/-- C9 amended: on every integer pixel input that CPython can convert to
a float — in particular every negative or oversized coordinate of
practical magnitude — `pixel_to_square` raises no error: the computed
file and rank indices are clamped into `0..7`, the result equals what the
caller would get by pre-clamping the coordinates into `0..650`, and it is
one of the 64 valid square names.  Totality stops only at the
int-to-float `OverflowError` exhibited by the counterexample. -/
theorem pixel_checked_total_unless_overflow (x y : Int) (o : Color)
    (hx : floatConvertible x = true) (hy : floatConvertible y = true) :
    pixel_to_square_checked x y 650 o = some (pixel_to_square x y 650 o) ∧
    pixel_to_square x y 650 o =
      pixel_to_square (max 0 (min 650 x)) (max 0 (min 650 y)) 650 o ∧
    pixel_to_square x y 650 o ∈ SQUARE_NAMES := by
  refine ⟨by simp [pixel_to_square_checked, hx, hy], ?_, pixel_to_square_mem x y o⟩
  have hidx : ∀ a : Int,
      max 0 (min 7 ((max 0 (min 650 a) * 8) / 650)) = max 0 (min 7 ((a * 8) / 650)) :=
    fun a => by omega
  simp only [pixel_to_square, hidx]

set_option maxRecDepth 8192 in
/-- Witness for the amended C9 at the out-of-range click `(-100, 10^6)`:
both coordinates are float-convertible and the mapper clamps them to the
square a1. -/
theorem pixel_checked_total_unless_overflow_witness :
    floatConvertible (-100) = true ∧ floatConvertible (10 ^ 6) = true ∧
    pixel_to_square_checked (-100) (10 ^ 6) 650 WHITE = some "a1" ∧
    pixel_to_square (-100) (10 ^ 6) 650 WHITE ∈ SQUARE_NAMES := by
  have hx : floatConvertible (-100) = true := by decide
  have hy : floatConvertible (10 ^ 6) = true := by decide
  have h := pixel_checked_total_unless_overflow (-100) (10 ^ 6) WHITE hx hy
  exact ⟨hx, hy, h.1.trans (by decide), h.2.2⟩

/-! ### C5: the pixel mapper on in-range input -/

/-- C5: every in-range pixel coordinate (`0 ≤ x, y ≤ 650`) maps to one of
the 64 squares, and away from the extreme edge the file and rank indices
are exactly the integer divisions of `x` and `y` by the cell size
`650 / 8` (no clamping intervenes), mirrored as `7 - idx` for the
Black-at-bottom orientation before being mapped to the file letter and
rank digit. -/
theorem pixel_to_square_in_range_formula (x y : Int) (o : Color)
    (hx0 : 0 ≤ x) (hx : x ≤ 650) (hy0 : 0 ≤ y) (hy : y ≤ 650) :
    pixel_to_square x y 650 o ∈ SQUARE_NAMES ∧
    (x < 650 → y < 650 →
      pixel_to_square x y 650 o =
        String.mk [Char.ofNat ('a'.toNat + (mirrorIdx o ((x * 8) / 650)).toNat),
                   Char.ofNat ('0'.toNat + (8 - mirrorIdx o ((y * 8) / 650)).toNat)]) := by
  refine ⟨pixel_to_square_mem x y o, fun hx1 hy1 => ?_⟩
  have h1 : max 0 (min 7 ((x * 8) / 650)) = (x * 8) / 650 := by omega
  have h2 : max 0 (min 7 ((y * 8) / 650)) = (y * 8) / 650 := by omega
  simp only [pixel_to_square, mirrorIdx, h1, h2]

/-- Witness for C5 at the click (100, 100): both hypotheses hold and the
mapper yields the square b7. -/
theorem pixel_to_square_in_range_formula_witness :
    (0 : Int) ≤ 100 ∧ (100 : Int) ≤ 650 ∧
    pixel_to_square 100 100 650 WHITE = "b7" ∧
    pixel_to_square 100 100 650 WHITE ∈ SQUARE_NAMES := by
  have h := pixel_to_square_in_range_formula 100 100 WHITE (by norm_num) (by norm_num)
    (by norm_num) (by norm_num)
  exact ⟨by norm_num, by norm_num, (h.2 (by norm_num) (by norm_num)).trans (by decide), h.1⟩

/-! ### C1: the turn and mode controller -/

/-- C1: the `ai_should_play` comparisons use the strings
`"Humano vs Stockfish"` and `"Stockfish vs Humano"`, but every value the
game-mode selectbox can produce carries a parenthesized suffix, so without
the manual button no mode and no side to move ever selects the engine; the
string that would trigger engine play is not among the options. -/
theorem selectbox_modes_never_trigger_ai :
    (∀ m ∈ gameModeOptions, ∀ c : Color, ai_should_play m c false = false) ∧
    ai_should_play "Humano vs Stockfish" BLACK false = true ∧
    "Humano vs Stockfish" ∉ gameModeOptions := by
  refine ⟨?_, by decide, by decide⟩
  intro m hm c
  fin_cases hm <;> revert c <;> decide

/-- Witness for C1 at the Human-as-White selectbox value with Black to
move: the mode is a selectbox option and the engine is not selected. -/
theorem selectbox_modes_never_trigger_ai_witness :
    "Humano vs Stockfish (Jogar de Brancas)" ∈ gameModeOptions ∧
    ai_should_play "Humano vs Stockfish (Jogar de Brancas)" BLACK false = false :=
  ⟨by decide, selectbox_modes_never_trigger_ai.1 _ (by decide) BLACK⟩

/-! ### C8: the reset button -/

/-- C8 counterexample: resetting `flippedSession` restores the board,
log and selection but leaves the orientation at Black and the engine
snapshot at `(12, 7)`, both different from their initial values, so the
session components are not reset as one unit. -/
theorem reset_button_keeps_orientation_and_config :
    (reset_session flippedSession).board = Board.start ∧
    (reset_session flippedSession).game_log = [] ∧
    (reset_session flippedSession).selected_square = none ∧
    (reset_session flippedSession).orientation = BLACK ∧
    (reset_session flippedSession).engine_params = some (12, 7) ∧
    init_session.orientation = WHITE ∧
    init_session.engine_params = none ∧
    (BLACK == WHITE) = false := by
  refine ⟨rfl, rfl, rfl, rfl, rfl, rfl, rfl, rfl⟩

/-- C8 amended: the reset button resets the board and clears the move log
and both selection fields together, but the orientation and the engine
parameter snapshot (and the game-mode widget, which is not session state)
keep their previous values. -/
theorem reset_button_resets_game_state_only (s : Session) :
    (reset_session s).board = Board.start ∧
    (reset_session s).game_log = [] ∧
    (reset_session s).selected_square = none ∧
    (reset_session s).valid_moves_from_square = [] ∧
    (reset_session s).orientation = s.orientation ∧
    (reset_session s).engine_params = s.engine_params :=
  ⟨rfl, rfl, rfl, rfl, rfl, rfl⟩

/-! ### C10: the engine-move branch -/

/-- C10: whenever the engine branch applies a best move (the returned UCI
string parses), the move string is appended to the log, the selected
square is cleared and the candidate list is emptied, and the move is
pushed onto the board. -/
theorem engine_move_appends_log_and_clears_selection (s : Session) (uci : String)
    (m : Move) (h : Move.from_uci uci = some m) :
    (engine_turn s (some uci)).game_log = s.game_log ++ [uci] ∧
    (engine_turn s (some uci)).selected_square = none ∧
    (engine_turn s (some uci)).valid_moves_from_square = [] ∧
    (engine_turn s (some uci)).board = s.board.push m := by
  simp [engine_turn, h]

/-- Witness for C10: the engine answers e7e5 in a session that had a
selection and a candidate list. -/
theorem engine_move_appends_log_and_clears_selection_witness :
    Move.from_uci "e7e5" = some ⟨52, 36, none⟩ ∧
    (engine_turn flippedSession (some "e7e5")).game_log = ["e2e4", "e7e5"] ∧
    (engine_turn flippedSession (some "e7e5")).selected_square = none ∧
    (engine_turn flippedSession (some "e7e5")).valid_moves_from_square = [] := by
  have h : Move.from_uci "e7e5" = some ⟨52, 36, none⟩ := by decide
  have hh := engine_move_appends_log_and_clears_selection flippedSession "e7e5" _ h
  exact ⟨h, hh.1, hh.2.1, hh.2.2.1⟩

/-! ### C6: the engine parameter synchronizer -/

/-- C6: after a call of `update_engine_dynamic` with a loaded engine that
applied `(depth, skill)` successfully, a second call with the same desired
values issues no engine commands and leaves the snapshot unchanged,
whatever the second call's engine would do. -/
theorem sync_same_config_second_call_noop (params : Option (Int × Int)) (d sk : Int)
    (o2 : ApplyOutcome) :
    (update_engine_dynamic (some .ok) params d sk).1 = some (d, sk) ∧
    update_engine_dynamic (some o2) ((update_engine_dynamic (some .ok) params d sk).1) d sk
      = ((update_engine_dynamic (some .ok) params d sk).1, []) := by
  have h1 : (update_engine_dynamic (some .ok) params d sk).1 = some (d, sk) := by
    by_cases h : params = some (d, sk)
    · subst h; simp [update_engine_dynamic]
    · simp [update_engine_dynamic, h]
  refine ⟨h1, ?_⟩
  rw [h1]
  simp [update_engine_dynamic]

/-! ### C7: the move-history rounds view -/

theorem specRoundsGo_length : ∀ (l : List String) (n : Nat),
    (specRoundsGo n l).length = (l.length + 1) / 2
  | [], _ => rfl
  | [_], _ => by simp [specRoundsGo]
  | _ :: _ :: rest, n => by
    simp only [specRoundsGo, List.length_cons, specRoundsGo_length rest (n + 1)]
    omega

theorem pgn_go_eq : ∀ (l : List String) (n : Nat),
    pgn_go (2 * n) l = renderRounds (specRoundsGo (n + 1) l)
  | [], _ => rfl
  | [w], n => by
    have h0 : (2 * n) % 2 = 0 := by omega
    have h1 : 2 * n / 2 = n := by omega
    simp [pgn_go, pgn_entry, renderRounds, renderRound, specRoundsGo, h0, h1]
  | w :: b :: rest, n => by
    have h0 : (2 * n) % 2 = 0 := by omega
    have h1 : 2 * n / 2 = n := by omega
    have h2 : (2 * n + 1) % 2 = 1 := by omega
    have h3 : 2 * n + 1 + 1 = 2 * (n + 1) := by omega
    have ih := pgn_go_eq rest (n + 1)
    simp [pgn_go, pgn_entry, renderRounds, renderRound, specRoundsGo, h0, h1, h2, h3, ih,
      String.append_assoc]

/-- C7: the history text renders the log exactly as the spec-side rounds
view (ply `i` appears in round `i/2 + 1`, even plies as White with the
round number, odd plies as Black closing the line), the example log of
three plies yields rounds 1 with both moves and round 2 with an absent
Black move, and the displayed round count equals the number of rounds,
the ceiling of the ply count over 2. -/
theorem history_rounds_pairing :
    (∀ log : List String, pgn_text log = renderRounds (specRounds log)) ∧
    specRounds ["e2e4", "e7e5", "g1f3"] = [(1, "e2e4", some "e7e5"), (2, "g1f3", none)] ∧
    (∀ log : List String, rodadas log = (specRounds log).length) := by
  refine ⟨fun log => pgn_go_eq log 0, by decide, fun log => (specRoundsGo_length log 1).symm⟩

/-! ### C2: the second click of the selection state machine -/

/-- C2 counterexample: in `selectedSession` (e2 selected, candidates
stored) a second click on e2 itself makes move resolution fail
(`e2e2` is an invalid UCI string), and the handler clears the selected
square but leaves the stored candidate list `["e2e3", "e2e4"]` in place —
the machine does not clear both parts of the selection. -/
theorem failed_second_click_keeps_candidates :
    pixel_to_square 350 500 650 WHITE = "e2" ∧
    (process_move selectedSession.board "e2e2" true).1 = false ∧
    (handle_coordinate_click selectedSession 350 500).1.selected_square = none ∧
    (handle_coordinate_click selectedSession 350 500).1.valid_moves_from_square
      = ["e2e3", "e2e4"] := by
  exact ⟨by decide, by decide, by decide, by decide⟩

/-- C2 amended: when the second pick's move resolution fails, the handler
clears only `selected_square`; the board, the log and in particular the
stored candidate-destination list keep their previous values (the stale
candidates are cleared only by a later successful move or selection). -/
theorem failed_second_click_clears_selection_only
    (s : Session) (x y : Int) (f : String)
    (hsel : s.selected_square = some f)
    (hfail : (process_move s.board (f ++ pixel_to_square x y 650 s.orientation) true).1
      = false) :
    (handle_coordinate_click s x y).1 = { s with selected_square := none } := by
  obtain ⟨q, hq⟩ := pixel_parse_some x y s.orientation
  simp only [handle_coordinate_click, hq, hsel, hfail, Bool.false_eq_true, if_false]

/-- Witness for the amended C2 at the concrete failing second click. -/
theorem failed_second_click_clears_selection_only_witness :
    selectedSession.selected_square = some "e2" ∧
    (process_move selectedSession.board
        ("e2" ++ pixel_to_square 350 500 650 selectedSession.orientation) true).1 = false ∧
    (handle_coordinate_click selectedSession 350 500).1
      = { selectedSession with selected_square := none } := by
  have h2 : (process_move selectedSession.board
      ("e2" ++ pixel_to_square 350 500 650 selectedSession.orientation) true).1 = false := by
    decide
  exact ⟨rfl, h2, failed_second_click_clears_selection_only selectedSession 350 500 "e2" rfl h2⟩

/-! ### C4: the error taxonomy of the move resolver -/

/-- C4 counterexample: `"Qd4"` matches the SAN grammar (a well-formed
queen move), and on `tinyBoard`, where no queen move to d4 is legal,
`process_move` reports it through the exception branch with the UCI
parser's `InvalidMoveError` — the same error class used for unparseable
text — instead of the dedicated illegal-move response. -/
theorem parseable_illegal_reported_as_parse_error :
    sanGroups "Qd4" = some ⟨some 'Q', none, none, "d4", none⟩ ∧
    process_move tinyBoard "Qd4" false = (false, .erro (.invalid "Qd4"), none) := by
  exact ⟨by decide, by decide⟩

/-- C4 amended: in the notation path a parseable-but-illegal move is
reported through the generic exception branch — as the UCI
`IllegalMoveError` when the text is valid UCI, but as the UCI
`InvalidMoveError` (the same class as unparseable text such as `"zzzz"`)
when it is not — and the dedicated "Movimento ilegal" branch fires only
when a parser returns a move outside the legal set, e.g. the null-move
spelling `"--"`. -/
theorem illegal_and_unparseable_share_error_path :
    process_move tinyBoard "e2e5" false = (false, .erro (.illegal "e2e5"), none) ∧
    process_move tinyBoard "Nf3" false = (false, .erro (.invalid "Nf3"), none) ∧
    process_move tinyBoard "zzzz" false = (false, .erro (.invalid "zzzz"), none) ∧
    process_move tinyBoard "--" false = (false, .ilegal "--", none) := by
  exact ⟨by decide, by decide, by decide, by decide⟩

/-! ### C3: promotion via a pure 4-character coordinate pair -/

theorem list_length_eq_four {α : Type} :
    ∀ {l : List α}, l.length = 4 → ∃ a b c d, l = [a, b, c, d]
  | [a, b, c, d], _ => ⟨a, b, c, d, rfl⟩
  | [], h => by simp at h
  | [_], h => by simp at h
  | [_, _], h => by simp at h
  | [_, _, _], h => by simp at h
  | _ :: _ :: _ :: _ :: _ :: _, h => by simp at h

theorem from_uci_length_four_promotion (input : String) (m : Move)
    (hlen : input.length = 4) (h : Move.from_uci input = some m) :
    m.promotion = none := by
  by_cases h0 : input = "0000"
  · subst h0
    simp [Move.from_uci] at h
    rw [← h]
    rfl
  · have hdl : input.toList.length = 4 := hlen
    obtain ⟨c1, c2, c3, c4, hl⟩ := list_length_eq_four hdl
    unfold Move.from_uci at h
    rw [hl] at h
    split at h
    · next hc => exact absurd (by simpa using hc) h0
    · rcases hp : parse_square (String.mk [c1, c2]) with _ | a
      · simp [hp] at h
      · rcases hq : parse_square (String.mk [c3, c4]) with _ | b
        · simp [hp, hq] at h
        · simp only [hp, hq] at h
          split at h
          · exact Option.noConfusion h
          · injection h with h2
            rw [← h2]

/-- C3 counterexample: on `promoBoard` the queen promotion `e7e8q` is in
the legal-move set, but the pure 4-character coordinate pair `e7e8`
(the string built by the click handler) is rejected by move resolution
with an error — queen promotion is not inferred. -/
theorem coordinate_promotion_not_inferred :
    (legal_moves promoBoard).contains ⟨52, 60, some .queen⟩ = true ∧
    process_move promoBoard "e7e8" true = (false, .erro (.illegal "e7e8"), none) := by
  exact ⟨by decide, by decide⟩

/-- C3 amended: a move entered as a pure 4-character coordinate pair is
never resolved to a promotion move — the UCI path parses exactly the two
squares with no promotion piece, so a pawn move to the last rank fails as
illegal on the coordinate path, fails on the notation path as well (the
`find_move` queen default is rejected by the promotion-mismatch guard of
`parse_san`), and succeeds only with an explicit suffix such as `e7e8q`. -/
theorem coordinate_promotion_requires_suffix :
    (∀ (b : Board) (input : String) (m : Move), input.length = 4 →
      (process_move b input true).2.2 = some m → m.promotion = none) ∧
    process_move promoBoard "e7e8" false = (false, .erro (.illegal "e7e8"), none) ∧
    process_move promoBoard "e7e8q" true
      = (true, .movimento ⟨52, 60, some .queen⟩, some ⟨52, 60, some .queen⟩) := by
  refine ⟨?_, by decide, by decide⟩
  intro b input m hlen h
  have h4 : (input.length == 4) = true := by simp [hlen]
  simp only [process_move, h4, if_true] at h
  rcases hp : b.parse_uci input with e | mv <;> simp only [hp] at h
  · simp at h
  · by_cases hL : b.is_legal mv
    · simp only [hL, if_true, Option.some.injEq] at h
      have hu : Move.from_uci input = some mv := by
        unfold Board.parse_uci at hp
        rcases hf : Move.from_uci input with _ | u <;> rw [hf] at hp
        · simp at hp
        · by_cases ht : u.toBool = false
          · simp [ht] at hp
          · by_cases hLu : b.is_legal u
            · simp [ht, hLu] at hp
              rw [hp]
            · simp [ht, hLu] at hp
      rw [← h]
      exact from_uci_length_four_promotion input mv hlen hu
    · simp [hL] at h

/-- Witness for the amended C3 at the non-promotion coordinate pair
`e2e4` on `tinyBoard`. -/
theorem coordinate_promotion_requires_suffix_witness :
    ("e2e4" : String).length = 4 ∧
    (process_move tinyBoard "e2e4" true).2.2 = some ⟨12, 28, none⟩ ∧
    (⟨12, 28, none⟩ : Move).promotion = none := by
  have h2 : (process_move tinyBoard "e2e4" true).2.2 = some ⟨12, 28, none⟩ := by decide
  exact ⟨rfl, h2, coordinate_promotion_requires_suffix.1 tinyBoard "e2e4" _ rfl h2⟩

end TitanChess
